import Mathlib

/-!
Verification of the quadrature engine of `integral_sum_calculator` (`src/lab.py`).

The embedding models Python floats as real numbers, Python exceptions as
`Except CalcError`, and the nondeterministic draw `random.uniform(0, delta_x)`
of the `RANDOM` rule as an explicit parameter `rand` supplied to each call.
The loops of `calculate_graph_points` / `calculate_integral_sum` are rendered
as structural recursion over `List.range (accuracy + 1).toNat`, matching
Python's `range(settings.accuracy + 1)` (empty when `accuracy + 1 <= 0`).
-/

set_option autoImplicit false

/-- Python `class Equipment(Enum)` with members LEFT, RIGHT, MIDDLE, RANDOM. -/
inductive Equipment where
  | LEFT
  | RIGHT
  | MIDDLE
  | RANDOM
  deriving DecidableEq, Repr

/-- Python `@dataclass Point` (the annotations say `int`, the stored values are
floats; we model them as reals). -/
structure Point where
  x : ℝ
  y : ℝ

/-- Python `@dataclass Settings`; `end` is a Lean keyword, so the field is
named `end_`. -/
structure Settings where
  task : ℤ
  start : ℤ
  end_ : ℤ
  accuracy : ℤ
  equipment : Equipment

/-- The exceptions the engine can raise: `Exception('Unsupported task')`,
`Exception('Unsupported equipment')` (unreachable while `Equipment` is the
closed four-member enum), and Python's `ZeroDivisionError` from
`calculate_delta_x` when `accuracy = 0`. -/
inductive CalcError where
  | unsupportedTask
  | unsupportedEquipment
  | divisionByZero
  deriving DecidableEq, Repr

/-- `CalculatorUtils.get_formula_value_at`: the closed formula table keyed by
`settings.task`. `math.e ** x` is `Real.exp x`, `3 ** x` is the real power
`(3 : ℝ) ^ x`. -/
noncomputable def get_formula_value_at (x : ℝ) (s : Settings) : Except CalcError ℝ :=
  if s.task = 2 then .ok (Real.exp x)
  else if s.task = 10 then .ok (Real.exp (2 * x))
  else if s.task = 22 then .ok (x ^ 3)
  else if s.task = 26 then .ok (Real.exp (2 * x))
  else if s.task = 31 then .ok ((3 : ℝ) ^ x)
  else .error .unsupportedTask

/-- `CalculatorUtils.calculate_delta_x`: `(end - start) / accuracy`; Python's
true division raises `ZeroDivisionError` when `accuracy = 0`. -/
noncomputable def calculate_delta_x (s : Settings) : Except CalcError ℝ :=
  if s.accuracy = 0 then .error .divisionByZero
  else .ok (((s.end_ : ℝ) - (s.start : ℝ)) / (s.accuracy : ℝ))

/-- Monadic map over `Except`, used to render the point-appending loop of
`calculate_graph_points`: the first raised exception aborts the loop. -/
def mapExcept {α β ε : Type} (f : α → Except ε β) : List α → Except ε (List β)
  | [] => .ok []
  | a :: l => do
      let b ← f a
      let bs ← mapExcept f l
      pure (b :: bs)

/-- `CalculatorUtils.calculate_graph_points`: one `Point` per
`i in range(accuracy + 1)`, at `x = start + i * delta_x`. -/
noncomputable def calculate_graph_points (s : Settings) : Except CalcError (List Point) := do
  let delta_x ← calculate_delta_x s
  mapExcept
    (fun (i : ℕ) => do
      let x := (s.start : ℝ) + (i : ℝ) * delta_x
      let y ← get_formula_value_at x s
      pure (Point.mk x y))
    (List.range (s.accuracy + 1).toNat)

/-- `CalculatorUtils.calculate_integral_shape_shift`. The `RANDOM` branch
returns the draw `random.uniform(0, delta_x)`, modelled by the parameter
`rand`; the Python `case _` raising `'Unsupported equipment'` is unreachable
because the enum is closed. -/
noncomputable def calculate_integral_shape_shift (s : Settings) (rand : ℝ) :
    Except CalcError ℝ := do
  let delta_x ← calculate_delta_x s
  match s.equipment with
  | .LEFT => pure 0
  | .RIGHT => pure delta_x
  | .MIDDLE => pure (delta_x / 2)
  | .RANDOM => pure rand

/-- The accumulation loop of `calculate_integral_sum`:
`integral_sum += delta_x * get_formula_value_at(start + i * delta_x)`. -/
noncomputable def sumLoop (s : Settings) (delta_x : ℝ) :
    List ℕ → ℝ → Except CalcError ℝ
  | [], acc => .ok acc
  | i :: is, acc => do
      let y ← get_formula_value_at ((s.start : ℝ) + (i : ℝ) * delta_x) s
      sumLoop s delta_x is (acc + delta_x * y)

/-- `CalculatorUtils.calculate_integral_sum`: raw `(accuracy + 1)`-point sum,
then the rule-specific correction subtracted according to `equipment`. -/
noncomputable def calculate_integral_sum (s : Settings) (rand : ℝ) :
    Except CalcError ℝ := do
  let delta_x ← calculate_delta_x s
  let delta_x_shift ← calculate_integral_shape_shift s rand
  let integral_sum ← sumLoop s delta_x (List.range (s.accuracy + 1).toNat) 0
  match s.equipment with
  | .LEFT => do
      let yStart ← get_formula_value_at (s.start : ℝ) s
      pure (integral_sum - yStart * delta_x)
  | .RIGHT => do
      let yEnd ← get_formula_value_at (s.end_ : ℝ) s
      pure (integral_sum - yEnd * delta_x)
  | .MIDDLE => do
      let yStart ← get_formula_value_at (s.start : ℝ) s
      let yEnd ← get_formula_value_at (s.end_ : ℝ) s
      pure (integral_sum - (yStart + yEnd) / 2 * delta_x)
  | .RANDOM => do
      let yStart ← get_formula_value_at (s.start : ℝ) s
      let yEnd ← get_formula_value_at (s.end_ : ℝ) s
      pure (integral_sum - (yStart * delta_x_shift + yEnd * (delta_x - delta_x_shift)))

/-- A `plt.Rectangle((x0, y0), width, height)` as produced by the drawer. -/
structure Rect where
  x0 : ℝ
  y0 : ℝ
  width : ℝ
  height : ℝ

/-- `Drawer.create_integral_rectangle`: rectangle at
`(point.x - delta_x_shift, 0)` with width `delta_x` and height `point.y`. -/
def create_integral_rectangle (point : Point) (delta_x delta_x_shift : ℝ) : Rect :=
  Rect.mk (point.x - delta_x_shift) 0 delta_x point.y

/-- `Drawer.create_integral_shape`: one rectangle per element of
`self.__points` (which the drawer computes via `calculate_graph_points` on the
same settings). -/
noncomputable def create_integral_shape (s : Settings) (rand : ℝ) :
    Except CalcError (List Rect) := do
  let points ← calculate_graph_points s
  let delta_x ← calculate_delta_x s
  let delta_x_shift ← calculate_integral_shape_shift s rand
  pure (points.map (fun p => create_integral_rectangle p delta_x delta_x_shift))

/-! ### Pure mirrors of the success path, used to state and prove the claims. -/

/-- The closed set of supported `task` ids. -/
def supportedTask (t : ℤ) : Prop :=
  t = 2 ∨ t = 10 ∨ t = 22 ∨ t = 26 ∨ t = 31

instance (t : ℤ) : Decidable (supportedTask t) := by
  unfold supportedTask; infer_instance

/-- The value of the formula table on the success path (`0` outside it). -/
noncomputable def formulaVal (t : ℤ) (x : ℝ) : ℝ :=
  if t = 2 then Real.exp x
  else if t = 10 then Real.exp (2 * x)
  else if t = 22 then x ^ 3
  else if t = 26 then Real.exp (2 * x)
  else if t = 31 then (3 : ℝ) ^ x
  else 0

/-- The subinterval width `(end - start) / accuracy` as a real number. -/
noncomputable def delta_x_val (s : Settings) : ℝ :=
  ((s.end_ : ℝ) - (s.start : ℝ)) / (s.accuracy : ℝ)

/-- The `i`-th abscissa `start + i * delta_x`. -/
noncomputable def xVal (s : Settings) (i : ℕ) : ℝ :=
  (s.start : ℝ) + (i : ℝ) * delta_x_val s

/-- The raw `(accuracy + 1)`-point weighted sum of step 1 of the algorithm. -/
noncomputable def rawSum (s : Settings) : ℝ :=
  ((List.range (s.accuracy + 1).toNat).map
    (fun i => delta_x_val s * formulaVal s.task (xVal s i))).sum

/-- The rule-specific correction subtracted in step 2 of the algorithm. -/
noncomputable def correctionVal (s : Settings) (rand : ℝ) : ℝ :=
  match s.equipment with
  | .LEFT => formulaVal s.task (s.start : ℝ) * delta_x_val s
  | .RIGHT => formulaVal s.task (s.end_ : ℝ) * delta_x_val s
  | .MIDDLE =>
      (formulaVal s.task (s.start : ℝ) + formulaVal s.task (s.end_ : ℝ)) / 2 * delta_x_val s
  | .RANDOM =>
      formulaVal s.task (s.start : ℝ) * rand +
        formulaVal s.task (s.end_ : ℝ) * (delta_x_val s - rand)

/-- The intra-subinterval shift on the success path. -/
noncomputable def shiftVal (s : Settings) (rand : ℝ) : ℝ :=
  match s.equipment with
  | .LEFT => 0
  | .RIGHT => delta_x_val s
  | .MIDDLE => delta_x_val s / 2
  | .RANDOM => rand

@[simp] lemma ok_bind {ε α β : Type} (a : α) (f : α → Except ε β) :
    (Except.ok a : Except ε α) >>= f = f a := rfl

@[simp] lemma error_bind {ε α β : Type} (e : ε) (f : α → Except ε β) :
    (Except.error e : Except ε α) >>= f = .error e := rfl

lemma get_formula_value_at_ok (x : ℝ) (s : Settings) (h : supportedTask s.task) :
    get_formula_value_at x s = .ok (formulaVal s.task x) := by
  rcases h with h | h | h | h | h <;>
    simp [get_formula_value_at, formulaVal, h]

lemma get_formula_value_at_err (x : ℝ) (s : Settings) (h : ¬ supportedTask s.task) :
    get_formula_value_at x s = .error .unsupportedTask := by
  rw [supportedTask] at h
  push_neg at h
  obtain ⟨h2, h10, h22, h26, h31⟩ := h
  simp [get_formula_value_at, h2, h10, h22, h26, h31]

lemma calculate_delta_x_ok (s : Settings) (h : s.accuracy ≠ 0) :
    calculate_delta_x s = .ok (delta_x_val s) := by
  simp [calculate_delta_x, delta_x_val, h]

lemma calculate_delta_x_err (s : Settings) (h : s.accuracy = 0) :
    calculate_delta_x s = .error .divisionByZero := by
  simp [calculate_delta_x, h]

lemma mapExcept_ok {α β : Type} (f : α → Except CalcError β) (g : α → β)
    (l : List α) (h : ∀ a ∈ l, f a = .ok (g a)) :
    mapExcept f l = .ok (l.map g) := by
  induction l with
  | nil => rfl
  | cons a l ih =>
      have ha : f a = .ok (g a) := h a (List.mem_cons_self a l)
      have hl : mapExcept f l = .ok (l.map g) :=
        ih (fun b hb => h b (List.mem_cons_of_mem a hb))
      simp [mapExcept, ha, hl]

lemma sumLoop_ok (s : Settings) (delta_x : ℝ) (h : supportedTask s.task)
    (l : List ℕ) (acc : ℝ) :
    sumLoop s delta_x l acc =
      .ok (acc + (l.map
        (fun (i : ℕ) =>
          delta_x * formulaVal s.task ((s.start : ℝ) + (i : ℝ) * delta_x))).sum) := by
  induction l generalizing acc with
  | nil => simp [sumLoop]
  | cons i is ih =>
      rw [sumLoop, get_formula_value_at_ok _ _ h]
      simp only [ok_bind, List.map_cons, List.sum_cons]
      rw [ih]
      congr 1
      ring

lemma calculate_graph_points_ok (s : Settings)
    (h1 : supportedTask s.task) (h2 : s.accuracy ≠ 0) :
    calculate_graph_points s =
      .ok ((List.range (s.accuracy + 1).toNat).map
        (fun i => Point.mk (xVal s i) (formulaVal s.task (xVal s i)))) := by
  rw [calculate_graph_points, calculate_delta_x_ok s h2]
  simp only [ok_bind]
  apply mapExcept_ok
  intro i _
  rw [get_formula_value_at_ok _ _ h1]
  rfl

lemma calculate_integral_shape_shift_ok (s : Settings) (rand : ℝ)
    (h2 : s.accuracy ≠ 0) :
    calculate_integral_shape_shift s rand = .ok (shiftVal s rand) := by
  rw [calculate_integral_shape_shift, calculate_delta_x_ok s h2]
  cases he : s.equipment <;> simp [shiftVal, he]

lemma calculate_integral_sum_ok (s : Settings) (rand : ℝ)
    (h1 : supportedTask s.task) (h2 : s.accuracy ≠ 0) :
    calculate_integral_sum s rand = .ok (rawSum s - correctionVal s rand) := by
  rw [calculate_integral_sum, calculate_delta_x_ok s h2,
    calculate_integral_shape_shift_ok s rand h2]
  simp only [ok_bind]
  rw [sumLoop_ok s _ h1]
  simp only [ok_bind, zero_add]
  have hraw : ((List.range (s.accuracy + 1).toNat).map
      (fun (i : ℕ) =>
        delta_x_val s * formulaVal s.task ((s.start : ℝ) + (i : ℝ) * delta_x_val s))).sum
      = rawSum s := by
    simp [rawSum, xVal]
  rw [hraw]
  cases he : s.equipment <;>
    simp [correctionVal, shiftVal, he, get_formula_value_at_ok _ _ h1]

lemma calculate_graph_points_err (s : Settings)
    (h1 : ¬ supportedTask s.task) (h2 : 1 ≤ s.accuracy) :
    calculate_graph_points s = .error .unsupportedTask := by
  have hacc : s.accuracy ≠ 0 := by omega
  rw [calculate_graph_points, calculate_delta_x_ok s hacc, ok_bind]
  obtain ⟨k, hk⟩ : ∃ k, (s.accuracy + 1).toNat = k + 1 := ⟨s.accuracy.toNat, by omega⟩
  rw [hk, List.range_succ_eq_map]
  simp [mapExcept, get_formula_value_at_err _ _ h1]

lemma calculate_integral_sum_err (s : Settings) (rand : ℝ)
    (h1 : ¬ supportedTask s.task) (h2 : 1 ≤ s.accuracy) :
    calculate_integral_sum s rand = .error .unsupportedTask := by
  have hacc : s.accuracy ≠ 0 := by omega
  rw [calculate_integral_sum, calculate_delta_x_ok s hacc,
    calculate_integral_shape_shift_ok s rand hacc]
  simp only [ok_bind]
  obtain ⟨k, hk⟩ : ∃ k, (s.accuracy + 1).toNat = k + 1 := ⟨s.accuracy.toNat, by omega⟩
  rw [hk, List.range_succ_eq_map]
  simp [sumLoop, get_formula_value_at_err _ _ h1]

/-! ### The claims -/

/-- C1: for task 22 (`x^3`), start 0, end 1, 2 subintervals and the Left rule,
`calculate_graph_points` returns exactly the samples (0,0), (0.5,0.125), (1,1)
and `calculate_integral_sum` returns exactly 0.5625 (the raw sum
`0.5*(0+0.125+1)`, the Left correction `y(0)*0.5 = 0`). -/
theorem c1_left_cube_scenario :
    calculate_graph_points (Settings.mk 22 0 1 2 Equipment.LEFT) =
      .ok [Point.mk 0 0, Point.mk 0.5 0.125, Point.mk 1 1] ∧
    ∀ rand : ℝ,
      calculate_integral_sum (Settings.mk 22 0 1 2 Equipment.LEFT) rand = .ok 0.5625 := by
  constructor
  · rw [calculate_graph_points_ok _ (by decide) (by decide)]
    norm_num [xVal, delta_x_val, formulaVal, show Int.toNat 3 = 3 from rfl,
      List.range_succ, Point.mk.injEq]
  · intro rand
    rw [calculate_integral_sum_ok _ _ (by decide) (by decide)]
    norm_num [rawSum, correctionVal, xVal, delta_x_val, formulaVal,
      show Int.toNat 3 = 3 from rfl, List.range_succ]

/-- C3: `get_formula_value_at` returns 1 at `x = 0` for tasks 31 and 2; any
task outside the closed set {2, 10, 22, 26, 31} raises the unsupported-task
error for every `x`, and (for a positive sample count) this error propagates
uncaught out of `calculate_graph_points` and `calculate_integral_sum`. -/
theorem c3_unsupported_formula_errors :
    (∀ (st en acc : ℤ) (e : Equipment),
      get_formula_value_at 0 (Settings.mk 31 st en acc e) = .ok 1) ∧
    (∀ (st en acc : ℤ) (e : Equipment),
      get_formula_value_at 0 (Settings.mk 2 st en acc e) = .ok 1) ∧
    (∀ (x : ℝ) (s : Settings), ¬ supportedTask s.task →
      get_formula_value_at x s = .error .unsupportedTask) ∧
    (∀ (s : Settings) (rand : ℝ), ¬ supportedTask s.task → 1 ≤ s.accuracy →
      calculate_graph_points s = .error .unsupportedTask ∧
      calculate_integral_sum s rand = .error .unsupportedTask) := by
  refine ⟨?_, ?_, ?_, ?_⟩
  · intro st en acc e
    simp [get_formula_value_at]
  · intro st en acc e
    simp [get_formula_value_at]
  · intro x s h
    exact get_formula_value_at_err x s h
  · intro s rand h1 h2
    exact ⟨calculate_graph_points_err s h1 h2, calculate_integral_sum_err s rand h1 h2⟩

/-- C3 witness: task 999 on [0, 1] with one subinterval. -/
theorem c3_unsupported_formula_errors_witness :
    ¬ supportedTask (999 : ℤ) ∧ (1 : ℤ) ≤ 1 ∧
    get_formula_value_at 0 (Settings.mk 999 0 1 1 Equipment.LEFT) =
      .error .unsupportedTask ∧
    calculate_graph_points (Settings.mk 999 0 1 1 Equipment.LEFT) =
      .error .unsupportedTask ∧
    calculate_integral_sum (Settings.mk 999 0 1 1 Equipment.LEFT) 0 =
      .error .unsupportedTask := by
  refine ⟨by decide, by decide, ?_, ?_, ?_⟩
  · exact c3_unsupported_formula_errors.2.2.1 0 (Settings.mk 999 0 1 1 Equipment.LEFT)
      (by decide)
  · exact (c3_unsupported_formula_errors.2.2.2 (Settings.mk 999 0 1 1 Equipment.LEFT) 0
      (by decide) (by decide)).1
  · exact (c3_unsupported_formula_errors.2.2.2 (Settings.mk 999 0 1 1 Equipment.LEFT) 0
      (by decide) (by decide)).2

/-- C6: for equipment LEFT, RIGHT or MIDDLE, `calculate_integral_sum` is
deterministic: its value does not depend on the random draw, despite the
unconditional call to `calculate_integral_shape_shift`. -/
theorem c6_deterministic_for_nonrandom_rules (s : Settings) (r₁ r₂ : ℝ)
    (h : s.equipment = Equipment.LEFT ∨ s.equipment = Equipment.RIGHT ∨
      s.equipment = Equipment.MIDDLE) :
    calculate_integral_sum s r₁ = calculate_integral_sum s r₂ := by
  obtain ⟨t, st, en, acc, e⟩ := s
  cases e <;> rcases h with h | h | h <;> first | rfl | exact Equipment.noConfusion h

/-- C6 witness: the default configuration (task 2, [0,1], 10 samples,
MIDDLE) under two different draws. -/
theorem c6_deterministic_for_nonrandom_rules_witness :
    ((Settings.mk 2 0 1 10 Equipment.MIDDLE).equipment = Equipment.LEFT ∨
      (Settings.mk 2 0 1 10 Equipment.MIDDLE).equipment = Equipment.RIGHT ∨
      (Settings.mk 2 0 1 10 Equipment.MIDDLE).equipment = Equipment.MIDDLE) ∧
    calculate_integral_sum (Settings.mk 2 0 1 10 Equipment.MIDDLE) 0 =
      calculate_integral_sum (Settings.mk 2 0 1 10 Equipment.MIDDLE) 1 :=
  ⟨by decide,
    c6_deterministic_for_nonrandom_rules (Settings.mk 2 0 1 10 Equipment.MIDDLE) 0 1
      (by decide)⟩

/-- C7: tasks 10 and 26 evaluate to the same value `e^(2x)` at every `x`, and
remain two distinct supported entries of the closed formula table. -/
theorem c7_duplicate_exponential_entries :
    (∀ (x : ℝ) (st en acc : ℤ) (e : Equipment),
      get_formula_value_at x (Settings.mk 10 st en acc e) =
        get_formula_value_at x (Settings.mk 26 st en acc e)) ∧
    (∀ (x : ℝ) (st en acc : ℤ) (e : Equipment),
      get_formula_value_at x (Settings.mk 10 st en acc e) = .ok (Real.exp (2 * x))) ∧
    (∀ (x : ℝ) (st en acc : ℤ) (e : Equipment),
      get_formula_value_at x (Settings.mk 26 st en acc e) = .ok (Real.exp (2 * x))) ∧
    supportedTask 10 ∧ supportedTask 26 ∧ (10 : ℤ) ≠ 26 := by
  refine ⟨?_, ?_, ?_, by decide, by decide, by decide⟩ <;>
    · intro x st en acc e
      simp [get_formula_value_at]

/-- C9: no validation of `start >= end` or `sampleCount <= 0` exists: with
`accuracy = 0`, `calculate_delta_x` (and hence `calculate_graph_points` and
`calculate_integral_sum`) fails with the division-by-zero error; with
`start >= end` (and a supported formula, positive sample count) both functions
return values without raising, over a zero-or-negative subinterval width. -/
theorem c9_no_input_validation (s : Settings) (rand : ℝ) :
    (s.accuracy = 0 →
      calculate_delta_x s = .error .divisionByZero ∧
      calculate_graph_points s = .error .divisionByZero ∧
      calculate_integral_sum s rand = .error .divisionByZero) ∧
    (supportedTask s.task → 1 ≤ s.accuracy → s.end_ ≤ s.start →
      delta_x_val s ≤ 0 ∧
      (∃ pts, calculate_graph_points s = .ok pts) ∧
      (∃ v, calculate_integral_sum s rand = .ok v)) := by
  constructor
  · intro h
    refine ⟨calculate_delta_x_err s h, ?_, ?_⟩
    · rw [calculate_graph_points, calculate_delta_x_err s h]
      rfl
    · rw [calculate_integral_sum, calculate_delta_x_err s h]
      rfl
  · intro h1 h2 h3
    have hacc : s.accuracy ≠ 0 := by omega
    refine ⟨?_, ⟨_, calculate_graph_points_ok s h1 hacc⟩,
      ⟨_, calculate_integral_sum_ok s rand h1 hacc⟩⟩
    have hnum : ((s.end_ : ℝ) - (s.start : ℝ)) ≤ 0 := by
      have : (s.end_ : ℝ) ≤ (s.start : ℝ) := by exact_mod_cast h3
      linarith
    have hden : (0 : ℝ) ≤ (s.accuracy : ℝ) := by exact_mod_cast (by omega : (0:ℤ) ≤ s.accuracy)
    exact div_nonpos_iff.mpr (Or.inr ⟨hnum, hden⟩)

/-- C9 witness: `accuracy = 0` raises division-by-zero; the degenerate
interval `[1, 0]` with 2 subintervals still returns values. -/
theorem c9_no_input_validation_witness :
    calculate_delta_x (Settings.mk 22 0 1 0 Equipment.LEFT) = .error .divisionByZero ∧
    (∃ pts, calculate_graph_points (Settings.mk 22 1 0 2 Equipment.LEFT) = .ok pts) ∧
    (∃ v, calculate_integral_sum (Settings.mk 22 1 0 2 Equipment.LEFT) 0 = .ok v) :=
  ⟨((c9_no_input_validation (Settings.mk 22 0 1 0 Equipment.LEFT) 0).1 rfl).1,
    ((c9_no_input_validation (Settings.mk 22 1 0 2 Equipment.LEFT) 0).2
      (by decide) (by decide) (by decide)).2.1,
    ((c9_no_input_validation (Settings.mk 22 1 0 2 Equipment.LEFT) 0).2
      (by decide) (by decide) (by decide)).2.2⟩

/-- C10: in exact arithmetic the MIDDLE estimate is the arithmetic mean of the
LEFT and RIGHT estimates for the same configuration, because the MIDDLE
correction `(y(start) + y(end))/2 * w` is the average of the LEFT and RIGHT
corrections subtracted from the same raw sum. -/
theorem c10_midpoint_is_mean_of_left_right (s : Settings) (rand : ℝ)
    (h1 : supportedTask s.task) (h2 : 1 ≤ s.accuracy) :
    ∃ L R M : ℝ,
      calculate_integral_sum {s with equipment := Equipment.LEFT} rand = .ok L ∧
      calculate_integral_sum {s with equipment := Equipment.RIGHT} rand = .ok R ∧
      calculate_integral_sum {s with equipment := Equipment.MIDDLE} rand = .ok M ∧
      M = (L + R) / 2 := by
  have hacc : s.accuracy ≠ 0 := by omega
  have eL : calculate_integral_sum {s with equipment := Equipment.LEFT} rand =
      .ok (rawSum s - formulaVal s.task (s.start : ℝ) * delta_x_val s) := by
    exact calculate_integral_sum_ok _ _ h1 hacc
  have eR : calculate_integral_sum {s with equipment := Equipment.RIGHT} rand =
      .ok (rawSum s - formulaVal s.task (s.end_ : ℝ) * delta_x_val s) := by
    exact calculate_integral_sum_ok _ _ h1 hacc
  have eM : calculate_integral_sum {s with equipment := Equipment.MIDDLE} rand =
      .ok (rawSum s -
        (formulaVal s.task (s.start : ℝ) + formulaVal s.task (s.end_ : ℝ)) / 2 *
          delta_x_val s) := by
    exact calculate_integral_sum_ok _ _ h1 hacc
  exact ⟨_, _, _, eL, eR, eM, by ring⟩

/-- C10 witness: task 22 on [0, 1] with 2 subintervals. -/
theorem c10_midpoint_is_mean_of_left_right_witness :
    supportedTask 22 ∧ (1 : ℤ) ≤ 2 ∧
    ∃ L R M : ℝ,
      calculate_integral_sum (Settings.mk 22 0 1 2 Equipment.LEFT) 0 = .ok L ∧
      calculate_integral_sum (Settings.mk 22 0 1 2 Equipment.RIGHT) 0 = .ok R ∧
      calculate_integral_sum (Settings.mk 22 0 1 2 Equipment.MIDDLE) 0 = .ok M ∧
      M = (L + R) / 2 :=
  ⟨by decide, by decide,
    c10_midpoint_is_mean_of_left_right (Settings.mk 22 0 1 2 Equipment.LEFT) 0
      (by decide) (by decide)⟩

/-- C4: when the selected formula is monotone (or antitone) on
`[start, end]`, the LEFT and RIGHT estimates bound the MIDDLE estimate from
opposite sides. -/
theorem c4_left_right_bound_midpoint (s : Settings) (rand : ℝ)
    (h1 : supportedTask s.task) (h2 : 1 ≤ s.accuracy) (h3 : s.start < s.end_)
    (hmono : MonotoneOn (formulaVal s.task) (Set.Icc (s.start : ℝ) (s.end_ : ℝ)) ∨
      AntitoneOn (formulaVal s.task) (Set.Icc (s.start : ℝ) (s.end_ : ℝ))) :
    ∃ L R M : ℝ,
      calculate_integral_sum {s with equipment := Equipment.LEFT} rand = .ok L ∧
      calculate_integral_sum {s with equipment := Equipment.RIGHT} rand = .ok R ∧
      calculate_integral_sum {s with equipment := Equipment.MIDDLE} rand = .ok M ∧
      ((L ≤ M ∧ M ≤ R) ∨ (R ≤ M ∧ M ≤ L)) := by
  have hacc : s.accuracy ≠ 0 := by omega
  have eL : calculate_integral_sum {s with equipment := Equipment.LEFT} rand =
      .ok (rawSum s - formulaVal s.task (s.start : ℝ) * delta_x_val s) := by
    exact calculate_integral_sum_ok _ _ h1 hacc
  have eR : calculate_integral_sum {s with equipment := Equipment.RIGHT} rand =
      .ok (rawSum s - formulaVal s.task (s.end_ : ℝ) * delta_x_val s) := by
    exact calculate_integral_sum_ok _ _ h1 hacc
  have eM : calculate_integral_sum {s with equipment := Equipment.MIDDLE} rand =
      .ok (rawSum s -
        (formulaVal s.task (s.start : ℝ) + formulaVal s.task (s.end_ : ℝ)) / 2 *
          delta_x_val s) := by
    exact calculate_integral_sum_ok _ _ h1 hacc
  refine ⟨_, _, _, eL, eR, eM, ?_⟩
  have hse : (s.start : ℝ) ≤ (s.end_ : ℝ) := by exact_mod_cast h3.le
  have hmemS : (s.start : ℝ) ∈ Set.Icc (s.start : ℝ) (s.end_ : ℝ) := ⟨le_refl _, hse⟩
  have hmemE : (s.end_ : ℝ) ∈ Set.Icc (s.start : ℝ) (s.end_ : ℝ) := ⟨hse, le_refl _⟩
  have hdx : 0 < delta_x_val s := by
    apply div_pos
    · have : (s.start : ℝ) < (s.end_ : ℝ) := by exact_mod_cast h3
      linarith
    · exact_mod_cast (by omega : (0:ℤ) < s.accuracy)
  rcases hmono with hm | hm
  · have hab := hm hmemS hmemE hse
    have := mul_le_mul_of_nonneg_right hab hdx.le
    right
    constructor <;> linarith
  · have hab := hm hmemS hmemE hse
    have := mul_le_mul_of_nonneg_right hab hdx.le
    left
    constructor <;> linarith

/-- C4 witness: `x^3` is monotone on `[0, 1]`. -/
theorem c4_left_right_bound_midpoint_witness :
    (MonotoneOn (formulaVal ((22:ℤ)))
        (Set.Icc ((((0:ℤ)):ℝ)) ((((1:ℤ)):ℝ))) ∨
      AntitoneOn (formulaVal ((22:ℤ)))
        (Set.Icc ((((0:ℤ)):ℝ)) ((((1:ℤ)):ℝ)))) ∧
    ∃ L R M : ℝ,
      calculate_integral_sum (Settings.mk 22 0 1 2 Equipment.LEFT) 0 = .ok L ∧
      calculate_integral_sum (Settings.mk 22 0 1 2 Equipment.RIGHT) 0 = .ok R ∧
      calculate_integral_sum (Settings.mk 22 0 1 2 Equipment.MIDDLE) 0 = .ok M ∧
      ((L ≤ M ∧ M ≤ R) ∨ (R ≤ M ∧ M ≤ L)) := by
  have hm : MonotoneOn (formulaVal ((22:ℤ)))
      (Set.Icc ((((0:ℤ)):ℝ)) ((((1:ℤ)):ℝ))) := by
    intro x hx y hy hxy
    have hx0 : (0:ℝ) ≤ x := by
      have := hx.1
      norm_num at this
      exact this
    simp only [formulaVal]
    norm_num
    exact pow_le_pow_left₀ hx0 hxy 3
  exact ⟨Or.inl hm,
    c4_left_right_bound_midpoint (Settings.mk 22 0 1 2 Equipment.LEFT) 0
      (by decide) (by decide) (by decide) (Or.inl hm)⟩

/-- C5: for any offset in `[0, w)` that the Random rule may draw, the RANDOM
estimate lies between the LEFT and the RIGHT estimates of the same
configuration. -/
theorem c5_random_between_left_right (s : Settings) (rand : ℝ)
    (h1 : supportedTask s.task) (h2 : 1 ≤ s.accuracy) (h3 : s.start < s.end_)
    (h4 : 0 ≤ rand) (h5 : rand < delta_x_val s) :
    ∃ L R X : ℝ,
      calculate_integral_sum {s with equipment := Equipment.LEFT} rand = .ok L ∧
      calculate_integral_sum {s with equipment := Equipment.RIGHT} rand = .ok R ∧
      calculate_integral_sum {s with equipment := Equipment.RANDOM} rand = .ok X ∧
      min L R ≤ X ∧ X ≤ max L R := by
  have hacc : s.accuracy ≠ 0 := by omega
  have eL : calculate_integral_sum {s with equipment := Equipment.LEFT} rand =
      .ok (rawSum s - formulaVal s.task (s.start : ℝ) * delta_x_val s) := by
    exact calculate_integral_sum_ok _ _ h1 hacc
  have eR : calculate_integral_sum {s with equipment := Equipment.RIGHT} rand =
      .ok (rawSum s - formulaVal s.task (s.end_ : ℝ) * delta_x_val s) := by
    exact calculate_integral_sum_ok _ _ h1 hacc
  have eX : calculate_integral_sum {s with equipment := Equipment.RANDOM} rand =
      .ok (rawSum s -
        (formulaVal s.task (s.start : ℝ) * rand +
          formulaVal s.task (s.end_ : ℝ) * (delta_x_val s - rand))) := by
    exact calculate_integral_sum_ok _ _ h1 hacc
  refine ⟨_, _, _, eL, eR, eX, ?_, ?_⟩ <;>
    rcases le_total (formulaVal s.task (s.start : ℝ)) (formulaVal s.task (s.end_ : ℝ))
      with hab | hab <;>
    [ exact le_trans (min_le_right _ _) (by nlinarith [mul_nonneg h4 (sub_nonneg.2 hab)]);
      exact le_trans (min_le_left _ _) (by nlinarith [mul_nonneg (sub_pos.2 h5).le (sub_nonneg.2 hab)]);
      exact le_trans (by nlinarith [mul_nonneg (sub_pos.2 h5).le (sub_nonneg.2 hab)]) (le_max_left _ _);
      exact le_trans (by nlinarith [mul_nonneg h4 (sub_nonneg.2 hab)]) (le_max_right _ _) ]

/-- C5 witness: task 22 on [0, 1] with 2 subintervals and draw 0. -/
theorem c5_random_between_left_right_witness :
    (0 : ℝ) ≤ 0 ∧ (0 : ℝ) < delta_x_val (Settings.mk 22 0 1 2 Equipment.LEFT) ∧
    ∃ L R X : ℝ,
      calculate_integral_sum (Settings.mk 22 0 1 2 Equipment.LEFT) 0 = .ok L ∧
      calculate_integral_sum (Settings.mk 22 0 1 2 Equipment.RIGHT) 0 = .ok R ∧
      calculate_integral_sum (Settings.mk 22 0 1 2 Equipment.RANDOM) 0 = .ok X ∧
      min L R ≤ X ∧ X ≤ max L R := by
  have hdx : (0 : ℝ) < delta_x_val (Settings.mk 22 0 1 2 Equipment.LEFT) := by
    norm_num [delta_x_val]
  exact ⟨le_refl 0, hdx,
    c5_random_between_left_right (Settings.mk 22 0 1 2 Equipment.LEFT) 0
      (by decide) (by decide) (by decide) (le_refl 0) hdx⟩

/-- C2: for a supported formula, `sampleCount >= 1` and `start < end`,
`calculate_graph_points` returns exactly `sampleCount + 1` points with
`x_i = start + i*w`, strictly increasing abscissas, first abscissa `start`
and last abscissa `end` (exactly, in real arithmetic). -/
theorem c2_sample_points (s : Settings)
    (h1 : supportedTask s.task) (h2 : 1 ≤ s.accuracy) (h3 : s.start < s.end_) :
    ∃ pts, calculate_graph_points s = .ok pts ∧
      pts.length = s.accuracy.toNat + 1 ∧
      (∀ i, (hi : i < pts.length) →
        (pts.get ⟨i, hi⟩).x = (s.start : ℝ) + (i : ℝ) * delta_x_val s) ∧
      (∀ i j, (hi : i < pts.length) → (hj : j < pts.length) → i < j →
        (pts.get ⟨i, hi⟩).x < (pts.get ⟨j, hj⟩).x) ∧
      (∀ h0 : 0 < pts.length, (pts.get ⟨0, h0⟩).x = (s.start : ℝ)) ∧
      (∀ hl : pts.length - 1 < pts.length,
        (pts.get ⟨pts.length - 1, hl⟩).x = (s.end_ : ℝ)) := by
  have hacc : s.accuracy ≠ 0 := by omega
  have haccR : (s.accuracy : ℝ) ≠ 0 := by exact_mod_cast hacc
  refine ⟨_, calculate_graph_points_ok s h1 hacc, ?_, ?_, ?_, ?_, ?_⟩
  · simp only [List.length_map, List.length_range]
    omega
  · intro i hi
    simp only [List.length_map, List.length_range] at hi
    simp [List.get_eq_getElem, List.getElem_map, List.getElem_range, xVal]
  · intro i j hi hj hij
    simp only [List.length_map, List.length_range] at hi hj
    simp only [List.get_eq_getElem, List.getElem_map, List.getElem_range, xVal]
    have hdx : 0 < delta_x_val s := by
      apply div_pos
      · have : (s.start : ℝ) < (s.end_ : ℝ) := by exact_mod_cast h3
        linarith
      · exact_mod_cast (by omega : (0:ℤ) < s.accuracy)
    have hijR : (i : ℝ) < (j : ℝ) := by exact_mod_cast hij
    nlinarith
  · intro h0
    simp [List.get_eq_getElem, List.getElem_map, List.getElem_range, xVal]
  · intro hl
    simp only [List.length_map, List.length_range] at hl ⊢
    simp only [List.get_eq_getElem, List.getElem_map, List.getElem_range, xVal]
    have hidx : (s.accuracy + 1).toNat - 1 = s.accuracy.toNat := by omega
    rw [hidx]
    have hcast : ((s.accuracy.toNat : ℕ) : ℝ) = (s.accuracy : ℝ) := by
      exact_mod_cast congrArg (Int.cast : ℤ → ℝ) (Int.toNat_of_nonneg (by omega))
    rw [hcast, delta_x_val]
    field_simp

/-- C2 witness: task 22 on [0, 1] with 2 subintervals. -/
theorem c2_sample_points_witness :
    supportedTask 22 ∧ (1 : ℤ) ≤ 2 ∧ (0 : ℤ) < 1 ∧
    ∃ pts, calculate_graph_points (Settings.mk 22 0 1 2 Equipment.LEFT) = .ok pts ∧
      pts.length = (2 : ℤ).toNat + 1 ∧
      (∀ i, (hi : i < pts.length) →
        (pts.get ⟨i, hi⟩).x =
          (((0 : ℤ)) : ℝ) + (i : ℝ) * delta_x_val (Settings.mk 22 0 1 2 Equipment.LEFT)) ∧
      (∀ i j, (hi : i < pts.length) → (hj : j < pts.length) → i < j →
        (pts.get ⟨i, hi⟩).x < (pts.get ⟨j, hj⟩).x) ∧
      (∀ h0 : 0 < pts.length, (pts.get ⟨0, h0⟩).x = (((0 : ℤ)) : ℝ)) ∧
      (∀ hl : pts.length - 1 < pts.length,
        (pts.get ⟨pts.length - 1, hl⟩).x = (((1 : ℤ)) : ℝ)) :=
  ⟨by decide, by decide, by decide,
    c2_sample_points (Settings.mk 22 0 1 2 Equipment.LEFT)
      (by decide) (by decide) (by decide)⟩

/-- C8 counterexample: for task 22 on [0, 1] with `sampleCount = 2`,
`create_integral_shape` produces 3 rectangles (one per sample point), not the
2 (one per subinterval) the claim states. -/
theorem c8_counterexample_three_rectangles :
    (create_integral_shape (Settings.mk 22 0 1 2 Equipment.LEFT) 0).map List.length =
      .ok 3 ∧ (3 : ℕ) ≠ 2 := by
  constructor
  · rw [create_integral_shape, calculate_graph_points_ok _ (by decide) (by decide)]
    simp only [ok_bind]
    rw [calculate_delta_x_ok _ (by decide)]
    simp only [ok_bind]
    rw [calculate_integral_shape_shift_ok _ _ (by decide)]
    simp only [ok_bind]
    simp [Except.map, pure, Except.pure, List.length_map, List.length_range,
      show Int.toNat 3 = 3 from rfl]
  · decide

/-- C8 (amended): `create_integral_shape` produces one rectangle per sample
point — `sampleCount + 1` rectangles, not `sampleCount` — each with left edge
`x_i - offset`, width `w` and height `y_i`. -/
theorem c8_one_rectangle_per_sample_point (s : Settings) (rand : ℝ)
    (h1 : supportedTask s.task) (h2 : 1 ≤ s.accuracy) :
    ∃ rects shift,
      create_integral_shape s rand = .ok rects ∧
      calculate_integral_shape_shift s rand = .ok shift ∧
      rects.length = s.accuracy.toNat + 1 ∧
      ∀ i, (hi : i < rects.length) →
        rects.get ⟨i, hi⟩ =
          Rect.mk (((s.start : ℝ) + (i : ℝ) * delta_x_val s) - shift) 0 (delta_x_val s)
            (formulaVal s.task ((s.start : ℝ) + (i : ℝ) * delta_x_val s)) := by
  have hacc : s.accuracy ≠ 0 := by omega
  have hshape : create_integral_shape s rand = .ok
      ((List.range (s.accuracy + 1).toNat).map
        (fun i => create_integral_rectangle
          (Point.mk (xVal s i) (formulaVal s.task (xVal s i))) (delta_x_val s)
          (shiftVal s rand))) := by
    rw [create_integral_shape, calculate_graph_points_ok s h1 hacc]
    simp only [ok_bind]
    rw [calculate_delta_x_ok s hacc]
    simp only [ok_bind]
    rw [calculate_integral_shape_shift_ok s rand hacc]
    simp only [ok_bind, List.map_map]
    rfl
  refine ⟨_, shiftVal s rand, hshape, calculate_integral_shape_shift_ok s rand hacc,
    ?_, ?_⟩
  · simp only [List.length_map, List.length_range]
    omega
  · intro i hi
    simp only [List.length_map, List.length_range] at hi
    simp [List.get_eq_getElem, List.getElem_map, List.getElem_range,
      create_integral_rectangle, xVal]

/-- C8 witness for the amended statement: task 22 on [0, 1] with 2
subintervals. -/
theorem c8_one_rectangle_per_sample_point_witness :
    supportedTask 22 ∧ (1 : ℤ) ≤ 2 ∧
    ∃ rects shift,
      create_integral_shape (Settings.mk 22 0 1 2 Equipment.LEFT) 0 = .ok rects ∧
      calculate_integral_shape_shift (Settings.mk 22 0 1 2 Equipment.LEFT) 0 =
        .ok shift ∧
      rects.length = (2 : ℤ).toNat + 1 ∧
      ∀ i, (hi : i < rects.length) →
        rects.get ⟨i, hi⟩ =
          Rect.mk (((((0 : ℤ)) : ℝ) +
              (i : ℝ) * delta_x_val (Settings.mk 22 0 1 2 Equipment.LEFT)) - shift) 0
            (delta_x_val (Settings.mk 22 0 1 2 Equipment.LEFT))
            (formulaVal 22 ((((0 : ℤ)) : ℝ) +
              (i : ℝ) * delta_x_val (Settings.mk 22 0 1 2 Equipment.LEFT))) :=
  ⟨by decide, by decide,
    c8_one_rectangle_per_sample_point (Settings.mk 22 0 1 2 Equipment.LEFT) 0
      (by decide) (by decide)⟩
